import Mathlib

/-!
Shallow embedding of the Etmam backend's quotation lifecycle
(`src/unnamed/part_000`, an Express router over PostgreSQL) and of the
driver account-provisioning endpoint (`src/api/driver/driver+api.js`).

Conventions of the embedding:
* SQL tables become association lists keyed by the row identifier;
  an UPDATE rewrites every row whose key matches, a DELETE filters them out.
* JavaScript numbers that carry money are modelled as rationals; a missing
  or non-numeric `price`/`quantity` field is an `Option` that is `none`
  (JS `parseFloat(x) || 0` coerces those to 0, modelled by `Option.getD 0`).
* The PUT transaction (`BEGIN` ... `COMMIT`/`ROLLBACK`) is modelled as a
  function from the database to a new database together with a response:
  every abort path returns the original database (the rollback).  A `fails`
  oracle says which numbered SQL statement of the transaction fails, which
  lets failure-in-the-middle executions be stated and proved about.
-/

/-! ## Decimal rendering of a number, as JS template interpolation does -/

/-- Fuel-driven digit accumulator: one step per decimal digit, matching the
repeated divide-by-10 rendering of a JS number.  `fuel` only bounds the
recursion; `n + 1` steps are always enough for `n`. -/
def natDigitsAux : Nat → Nat → List Char → List Char
  | 0, _, acc => acc
  | fuel + 1, n, acc =>
    if n = 0 then acc
    else natDigitsAux fuel (n / 10) (Char.ofNat (48 + n % 10) :: acc)

/-- Decimal digit string of `n`, as produced by JS string interpolation. -/
def natToDigits (n : Nat) : List Char :=
  if n = 0 then ['0'] else natDigitsAux (n + 1) n []

/-- Value of a decimal digit string, as computed by JS `parseInt(s, 10)`
on an all-digit string (modelled exactly over `Nat`). -/
def digitsToNat (l : List Char) : Nat :=
  l.foldl (fun a c => a * 10 + (c.toNat - 48)) 0

theorem natDigitsAux_digits (fuel : Nat) :
    ∀ n acc, (∀ c ∈ acc, c.isDigit = true) →
      ∀ c ∈ natDigitsAux fuel n acc, c.isDigit = true := by
  induction fuel with
  | zero => intro n acc hacc c hc; exact hacc c hc
  | succ fuel ih =>
    intro n acc hacc c hc
    unfold natDigitsAux at hc
    by_cases h : n = 0
    · rw [if_pos h] at hc; exact hacc c hc
    · rw [if_neg h] at hc
      refine ih (n / 10) _ ?_ c hc
      intro d hd
      rcases List.mem_cons.mp hd with h1 | h1
      · subst h1
        have h10 : n % 10 < 10 := Nat.mod_lt _ (by decide)
        have hall : ∀ k, k < 10 → (Char.ofNat (48 + k)).isDigit = true := by decide
        exact hall _ h10
      · exact hacc d h1

theorem natDigitsAux_suffix (fuel : Nat) :
    ∀ n acc, ∃ l, natDigitsAux fuel n acc = l ++ acc := by
  induction fuel with
  | zero => intro n acc; exact ⟨[], rfl⟩
  | succ fuel ih =>
    intro n acc
    unfold natDigitsAux
    by_cases h : n = 0
    · rw [if_pos h]; exact ⟨[], rfl⟩
    · rw [if_neg h]
      obtain ⟨l, hl⟩ := ih (n / 10) (Char.ofNat (48 + n % 10) :: acc)
      exact ⟨l ++ [Char.ofNat (48 + n % 10)], by simp [hl]⟩

theorem natToDigits_digits (n : Nat) : ∀ c ∈ natToDigits n, c.isDigit = true := by
  unfold natToDigits
  by_cases h : n = 0
  · rw [if_pos h]; decide
  · rw [if_neg h]
    exact natDigitsAux_digits (n + 1) n [] (by intro c hc; cases hc)

theorem natToDigits_ne_nil (n : Nat) : natToDigits n ≠ [] := by
  unfold natToDigits
  by_cases h : n = 0
  · rw [if_pos h]; decide
  · rw [if_neg h]
    show natDigitsAux (n + 1) n [] ≠ []
    unfold natDigitsAux
    rw [if_neg h]
    obtain ⟨l, hl⟩ := natDigitsAux_suffix n (n / 10) [Char.ofNat (48 + n % 10)]
    rw [hl]
    simp

/-! ## Revision-suffix derivation (`PUT /quotations/:id`, lines 152-162)

The code matches `custom_id` against the regex `Rev(\d+)$`; on a match it
replaces the matched `Rev<digits>` suffix by `Rev<digits value + 1>`,
otherwise it appends `" Rev1"`.  A match of that anchored regex exists
exactly when the maximal trailing digit run is non-empty and the part
before it ends with the three characters `R`, `e`, `v`. -/

/-- Maximal run of decimal digits at the end of the string. -/
def trailingDigits (l : List Char) : List Char :=
  (l.reverse.takeWhile Char.isDigit).reverse

/-- The string with its maximal trailing digit run removed. -/
def stripDigits (l : List Char) : List Char :=
  (l.reverse.dropWhile Char.isDigit).reverse

/-- Does the string end with the three characters `R`, `e`, `v`? -/
def endsWithRev (l : List Char) : Bool :=
  match l.reverse with
  | c1 :: c2 :: c3 :: _ => c1 == 'v' && c2 == 'e' && c3 == 'R'
  | _ => false

/-- The revision derivation of lines 156-162: on a `Rev(\d+)$` match,
replace the digits by their incremented value; otherwise append `" Rev1"`. -/
def deriveCustomIdL (l : List Char) : List Char :=
  if (trailingDigits l).isEmpty = true then l ++ (' ' :: 'R' :: 'e' :: 'v' :: '1' :: [])
  else if endsWithRev (stripDigits l) = true then
    stripDigits l ++ natToDigits (digitsToNat (trailingDigits l) + 1)
  else l ++ (' ' :: 'R' :: 'e' :: 'v' :: '1' :: [])

/-- String-level wrapper of the revision derivation. -/
def deriveCustomId (s : String) : String :=
  String.mk (deriveCustomIdL s.data)

theorem takeWhile_all_append (q : Char → Bool) (xs : List Char) (y : Char) (ys : List Char)
    (hxs : ∀ c ∈ xs, q c = true) (hy : q y = false) :
    List.takeWhile q (xs ++ y :: ys) = xs := by
  induction xs with
  | nil => simp [List.takeWhile_cons, hy]
  | cons a t ih =>
    have ha : q a = true := hxs a (List.mem_cons_self a t)
    simp only [List.cons_append, List.takeWhile_cons, ha, if_true]
    rw [ih (fun c hc => hxs c (List.mem_cons_of_mem a hc))]

theorem dropWhile_all_append (q : Char → Bool) (xs : List Char) (y : Char) (ys : List Char)
    (hxs : ∀ c ∈ xs, q c = true) (hy : q y = false) :
    List.dropWhile q (xs ++ y :: ys) = y :: ys := by
  induction xs with
  | nil => simp [List.dropWhile_cons, hy]
  | cons a t ih =>
    have ha : q a = true := hxs a (List.mem_cons_self a t)
    simp only [List.cons_append, List.dropWhile_cons, ha, if_true]
    exact ih (fun c hc => hxs c (List.mem_cons_of_mem a hc))

theorem trailingDigits_rev (p ds : List Char) (hds : ∀ c ∈ ds, c.isDigit = true) :
    trailingDigits (p ++ 'R' :: 'e' :: 'v' :: ds) = ds := by
  unfold trailingDigits
  have hrev : (p ++ 'R' :: 'e' :: 'v' :: ds).reverse =
      ds.reverse ++ 'v' :: 'e' :: 'R' :: p.reverse := by
    simp
  rw [hrev, takeWhile_all_append Char.isDigit ds.reverse 'v' ('e' :: 'R' :: p.reverse)
    (fun c hc => hds c (List.mem_reverse.mp hc)) (by decide)]
  simp

theorem stripDigits_rev (p ds : List Char) (hds : ∀ c ∈ ds, c.isDigit = true) :
    stripDigits (p ++ 'R' :: 'e' :: 'v' :: ds) = p ++ ('R' :: 'e' :: 'v' :: []) := by
  unfold stripDigits
  have hrev : (p ++ 'R' :: 'e' :: 'v' :: ds).reverse =
      ds.reverse ++ 'v' :: 'e' :: 'R' :: p.reverse := by
    simp
  rw [hrev, dropWhile_all_append Char.isDigit ds.reverse 'v' ('e' :: 'R' :: p.reverse)
    (fun c hc => hds c (List.mem_reverse.mp hc)) (by decide)]
  simp

theorem endsWithRev_append (p : List Char) :
    endsWithRev (p ++ ('R' :: 'e' :: 'v' :: [])) = true := by
  unfold endsWithRev
  rw [show (p ++ ('R' :: 'e' :: 'v' :: [])).reverse = 'v' :: 'e' :: 'R' :: p.reverse from by simp]
  rfl

theorem endsWithRev_elim (l : List Char) (h : endsWithRev l = true) :
    ∃ t, l = t ++ ('R' :: 'e' :: 'v' :: []) := by
  unfold endsWithRev at h
  rcases hl : l.reverse with _ | ⟨c1, _ | ⟨c2, _ | ⟨c3, rest⟩⟩⟩ <;> rw [hl] at h
  · cases h
  · cases h
  · cases h
  · simp only [Bool.and_eq_true, beq_iff_eq] at h
    obtain ⟨⟨h1, h2⟩, h3⟩ := h
    subst h1; subst h2; subst h3
    refine ⟨rest.reverse, ?_⟩
    rw [← List.reverse_reverse l, hl]
    simp

theorem stripDigits_append_trailingDigits (l : List Char) :
    stripDigits l ++ trailingDigits l = l := by
  unfold stripDigits trailingDigits
  rw [← List.reverse_append, List.takeWhile_append_dropWhile, List.reverse_reverse]

theorem trailingDigits_all_digits (l : List Char) :
    ∀ c ∈ trailingDigits l, c.isDigit = true := by
  intro c hc
  unfold trailingDigits at hc
  exact List.mem_takeWhile_imp (List.mem_reverse.mp hc)

theorem trailingDigits_ne_nil_of_not_isEmpty (l : List Char)
    (h : ¬ (trailingDigits l).isEmpty = true) : trailingDigits l ≠ [] := by
  intro hnil
  rw [hnil] at h
  exact h rfl

/-- C1: revision derivation of `custom_id` (lines 152-162 of the quotation
router).  (i) If the stored id decomposes as `p ++ "Rev" ++ ds` with `ds` a
non-empty digit string (the `Rev(\d+)$` match), the result replaces the
suffix by `Rev` followed by the decimal rendering of `N + 1`;
(ii) otherwise `" Rev1"` is appended; (iii) `"X Rev3"` maps to `"X Rev4"`;
(iv) `"X"` maps to `"X Rev1"`; (v) every derived id again ends in
`Rev<digits>`. -/
theorem c1_revision_custom_id :
    (∀ p ds : List Char, ds ≠ [] → (∀ c ∈ ds, c.isDigit = true) →
        deriveCustomIdL (p ++ 'R' :: 'e' :: 'v' :: ds) =
          p ++ 'R' :: 'e' :: 'v' :: natToDigits (digitsToNat ds + 1))
    ∧ (∀ l : List Char,
        (¬ ∃ p ds, ds ≠ [] ∧ (∀ c ∈ ds, c.isDigit = true) ∧
          l = p ++ 'R' :: 'e' :: 'v' :: ds) →
        deriveCustomIdL l = l ++ (' ' :: 'R' :: 'e' :: 'v' :: '1' :: []))
    ∧ deriveCustomId "X Rev3" = "X Rev4"
    ∧ deriveCustomId "X" = "X Rev1"
    ∧ (∀ l : List Char, ∃ p ds, ds ≠ [] ∧ (∀ c ∈ ds, c.isDigit = true) ∧
        deriveCustomIdL l = p ++ 'R' :: 'e' :: 'v' :: ds) := by
  refine ⟨?_, ?_, by decide, by decide, ?_⟩
  · intro p ds h1 h2
    unfold deriveCustomIdL
    rw [trailingDigits_rev p ds h2, stripDigits_rev p ds h2]
    have hne : ds.isEmpty = false := by
      cases ds with
      | nil => exact absurd rfl h1
      | cons a t => rfl
    rw [hne]
    simp only [Bool.false_eq_true, if_false]
    rw [if_pos (endsWithRev_append p)]
    simp
  · intro l hno
    unfold deriveCustomIdL
    by_cases h0 : (trailingDigits l).isEmpty = true
    · rw [if_pos h0]
    · rw [if_neg h0]
      by_cases h1 : endsWithRev (stripDigits l) = true
      · exfalso
        obtain ⟨t, ht⟩ := endsWithRev_elim _ h1
        refine hno ⟨t, trailingDigits l,
          trailingDigits_ne_nil_of_not_isEmpty l h0, trailingDigits_all_digits l, ?_⟩
        have hdec : l = stripDigits l ++ trailingDigits l :=
          (stripDigits_append_trailingDigits l).symm
        rw [ht] at hdec
        simpa using hdec
      · rw [if_neg h1]
  · intro l
    unfold deriveCustomIdL
    by_cases h0 : (trailingDigits l).isEmpty = true
    · rw [if_pos h0]
      exact ⟨l ++ [' '], ['1'], by decide, by decide, by simp⟩
    · rw [if_neg h0]
      by_cases h1 : endsWithRev (stripDigits l) = true
      · rw [if_pos h1]
        obtain ⟨t, ht⟩ := endsWithRev_elim _ h1
        refine ⟨t, natToDigits (digitsToNat (trailingDigits l) + 1),
          natToDigits_ne_nil _, natToDigits_digits _, ?_⟩
        rw [ht]
        simp
      · rw [if_neg h1]
        exact ⟨l ++ [' '], ['1'], by decide, by decide, by simp⟩

/-- Witness for C1: the theorem applied at the concrete inputs
`"X Rev3" = "X " ++ "Rev" ++ "3"` (match branch) and `"X"` (no-match
branch). -/
theorem c1_revision_custom_id_witness :
    deriveCustomIdL (['X', ' '] ++ 'R' :: 'e' :: 'v' :: ['3']) =
      ['X', ' '] ++ 'R' :: 'e' :: 'v' :: natToDigits (digitsToNat ['3'] + 1)
    ∧ deriveCustomIdL ['X'] = ['X'] ++ (' ' :: 'R' :: 'e' :: 'v' :: '1' :: []) :=
  ⟨c1_revision_custom_id.1 ['X', ' '] ['3'] (by decide) (by decide),
   c1_revision_custom_id.2.1 ['X'] (by
    rintro ⟨p, ds, hds, hdig, habs⟩
    have hlen := congrArg List.length habs
    simp at hlen
    omega)⟩

/-! ## Data model

Rows of the tables touched by the quotation router.  Only columns that the
router reads or writes are modelled.  `client_id` and the free-text columns
are `Option String` because the SQL parameters may be NULL (an absent JS
body field is sent as NULL).  Monetary columns are rationals. -/

structure LineItem where
  description : Option String
  quantity : Option ℚ
  price : Option ℚ
  vat : ℚ
  subtotal : ℚ
deriving DecidableEq

structure Quotation where
  custom_id : String
  client_id : Option String
  delivery_date : Option String
  delivery_type : Option String
  notes : Option String
  status : String
  storekeeperaccept : String
  supervisoraccept : String
  manageraccept : String
  updated_at : Nat
  actual_delivery_date : Option String
  storekeeper_notes : Option String
  total_price : ℚ
  total_vat : ℚ
  total_subtotal : ℚ
  exported : Bool
  sales_rep_id : String
  supervisor_id : Option String
deriving DecidableEq

structure Client where
  company_name : String
  client_name : String
  phone_number : String
deriving DecidableEq

structure SalesRep where
  name : String
  email : String
  phone : String
deriving DecidableEq

structure Supervisor where
  name : String
deriving DecidableEq

/-- The database state seen by the quotation router. -/
structure DB where
  quotations : List (String × Quotation)
  quotation_products : List (String × LineItem)
  clients : List (String × Client)
  salesreps : List (String × SalesRep)
  supervisors : List (String × Supervisor)
deriving DecidableEq

/-- `SELECT ... WHERE id = k`: first row whose key is `k`. -/
def assocFind {α : Type} : List (String × α) → String → Option α
  | [], _ => none
  | r :: rest, k => if r.1 = k then some r.2 else assocFind rest k

/-- `UPDATE ... WHERE id = k`: rewrite every row whose key is `k`. -/
def assocUpdate {α : Type} (l : List (String × α)) (k : String) (v : α) :
    List (String × α) :=
  l.map (fun r => if r.1 = k then (k, v) else r)

/-- `DELETE ... WHERE key = k`: drop every row whose key is `k`. -/
def assocErase {α : Type} (l : List (String × α)) (k : String) :
    List (String × α) :=
  l.filter (fun r => !(r.1 = k : Bool))

theorem assocFind_update {α : Type} (l : List (String × α)) (k : String) (v w : α)
    (h : assocFind l k = some w) :
    assocFind (assocUpdate l k v) k = some v := by
  induction l with
  | nil => cases h
  | cons r t ih =>
    by_cases hk : r.1 = k
    · simp [assocFind, assocUpdate, hk]
    · simp only [assocFind, assocUpdate, List.map_cons, if_neg hk] at h ⊢
      exact ih h

theorem assocFind_erase {α : Type} (l : List (String × α)) (k : String) :
    assocFind (assocErase l k) k = none := by
  induction l with
  | nil => rfl
  | cons r t ih =>
    by_cases hk : r.1 = k
    · simpa [assocErase, List.filter_cons, hk] using ih
    · simpa [assocErase, assocFind, List.filter_cons, hk] using ih

/-! ## Incoming payload of `PUT /quotations/:id` -/

/-- One element of the incoming `products` array.  The handler destructures
`section` and `type` as well but never uses them (the INSERT stores only
description, quantity, price, vat, subtotal), so they are not modelled.
`price`/`quantity` are `none` when missing or non-numeric. -/
structure ProductInput where
  description : Option String
  quantity : Option ℚ
  price : Option ℚ
deriving DecidableEq

structure RevisionBody where
  client_id : Option String
  delivery_date : Option String
  delivery_type : Option String
  notes : Option String
  products : Option (List ProductInput)
  status : Option String
  storekeeper_notes : Option String
deriving DecidableEq

/-- JS `x || null` on a string field: the empty string is falsy. -/
def jsOrNull : Option String → Option String
  | some "" => none
  | x => x

/-- SQL `COALESCE(a, b)`. -/
def coalesce (a b : Option String) : Option String :=
  match a with
  | some v => some v
  | none => b

/-- `price × quantity` of one incoming line, lines 175-178: a missing or
non-numeric field is coerced to 0 (`parseFloat(x) || 0`). -/
def lineTotal (p : ProductInput) : ℚ :=
  p.price.getD 0 * p.quantity.getD 0

/-- One iteration of the totals loop, lines 173-185. -/
def totalsStep (acc : ℚ × ℚ × ℚ) (p : ProductInput) : ℚ × ℚ × ℚ :=
  let numericPrice := p.price.getD 0
  let numericQuantity := p.quantity.getD 0
  let totalPriceForProduct := numericPrice * numericQuantity
  let vat := totalPriceForProduct * (15 / 100 : ℚ)
  let subtotal := totalPriceForProduct + vat
  (acc.1 + totalPriceForProduct, acc.2.1 + vat, acc.2.2 + subtotal)

/-- The totals loop of lines 167-186: `(total_price, total_vat,
total_subtotal)` accumulated over the incoming items, starting from 0.
On an empty (or absent) list the loop body never runs and all three stay 0,
which is also what this fold yields. -/
def computeTotals (ps : List ProductInput) : ℚ × ℚ × ℚ :=
  ps.foldl totalsStep (0, 0, 0)

/-- Sum of `price × quantity` over a list of incoming items. -/
def sumLineTotals (ps : List ProductInput) : ℚ :=
  (ps.map lineTotal).sum

/-- The row inserted for one incoming product, lines 236-257: raw
description/quantity/price plus recomputed vat and subtotal. -/
def mkLineItem (p : ProductInput) : LineItem :=
  let numericPrice := p.price.getD 0
  let numericQuantity := p.quantity.getD 0
  let totalPriceForProduct := numericPrice * numericQuantity
  let vat := totalPriceForProduct * (15 / 100 : ℚ)
  let subtotal := totalPriceForProduct + vat
  { description := p.description, quantity := p.quantity, price := p.price,
    vat := vat, subtotal := subtotal }

/-- The header row produced by `updateQuotationQuery` (lines 188-227) from
the stored row `q`: all three approval flags forced to `"pending"`,
`updated_at` bumped, `actual_delivery_date` under COALESCE, recomputed
totals, and the derived `custom_id`. -/
def revisedQuotation (q : Quotation) (body : RevisionBody) (now : Nat)
    (nowIso : String) : Quotation :=
  let statusVal := body.status.getD "not Delivered"
  let actualDeliveryDate : Option String :=
    if statusVal = "delivered" then some nowIso else none
  let t := computeTotals (body.products.getD [])
  { q with
    client_id := body.client_id
    delivery_date := body.delivery_date
    delivery_type := body.delivery_type
    notes := jsOrNull body.notes
    status := statusVal
    storekeeperaccept := "pending"
    supervisoraccept := "pending"
    manageraccept := "pending"
    updated_at := now
    actual_delivery_date := coalesce actualDeliveryDate q.actual_delivery_date
    storekeeper_notes := jsOrNull body.storekeeper_notes
    total_price := t.1
    total_vat := t.2.1
    total_subtotal := t.2.2
    custom_id := deriveCustomId q.custom_id }

/-- The database after the header UPDATE has been applied. -/
def headerUpdated (db : DB) (id : String) (q : Quotation) (body : RevisionBody)
    (now : Nat) (nowIso : String) : DB :=
  { db with quotations :=
      assocUpdate db.quotations id (revisedQuotation q body now nowIso) }

/-- The insert loop of lines 236-257, one INSERT per incoming product.
Statement `idx` failing (per the `fails` oracle) aborts the loop, which the
handler turns into a rollback. -/
def insertProducts (id : String) (ps : List ProductInput) (idx : Nat)
    (fails : Nat → Bool) (rows : List (String × LineItem)) :
    Option (List (String × LineItem)) :=
  match ps with
  | [] => some rows
  | p :: rest =>
    if fails idx = true then none
    else insertProducts id rest (idx + 1) fails (rows ++ [(id, mkLineItem p)])

/-- Lines 230-258 when a non-empty `products` array is supplied: DELETE all
rows of this quotation (statement 2), then INSERT each incoming product
(statements 3, 4, ...). -/
def replaceProducts (rows : List (String × LineItem)) (id : String)
    (ps : List ProductInput) (fails : Nat → Bool) :
    Option (List (String × LineItem)) :=
  if fails 2 = true then none
  else insertProducts id ps 3 fails (assocErase rows id)

/-- Outcome of `PUT /quotations/:id` as seen by the HTTP caller. -/
inductive RevResult where
  | success (custom_id : String)
  | notFound
  | serverError
deriving DecidableEq

/-- The transaction of `PUT /quotations/:id` (lines 127-275).  Statement 0
is the `custom_id` SELECT, statement 1 the header UPDATE, statement 2 the
products DELETE and statements 3... the INSERTs; `fails n = true` means
statement `n` errors.  Every abort path — missing row, or any failing
statement — returns the original database: the handler's catch issues
ROLLBACK, so no partial write is ever committed. -/
def revisionWrite (db : DB) (id : String) (body : RevisionBody) (now : Nat)
    (nowIso : String) (fails : Nat → Bool) : DB × RevResult :=
  if fails 0 = true then (db, RevResult.serverError)
  else
    match assocFind db.quotations id with
    | none => (db, RevResult.notFound)
    | some q =>
      if fails 1 = true then (db, RevResult.serverError)
      else
        match body.products with
        | some ps =>
          if ps = [] then
            (headerUpdated db id q body now nowIso,
             RevResult.success (deriveCustomId q.custom_id))
          else
            match replaceProducts db.quotation_products id ps fails with
            | none => (db, RevResult.serverError)
            | some rows =>
              ({ headerUpdated db id q body now nowIso with
                  quotation_products := rows },
               RevResult.success (deriveCustomId q.custom_id))
        | none =>
          (headerUpdated db id q body now nowIso,
           RevResult.success (deriveCustomId q.custom_id))

/-- The statement-failure oracle of a run where every statement succeeds. -/
def neverFail : Nat → Bool := fun _ => false

theorem computeTotals_foldl (ps : List ProductInput) :
    ∀ a b c : ℚ, ps.foldl totalsStep (a, b, c) =
      (a + sumLineTotals ps,
       b + sumLineTotals ps * (15 / 100 : ℚ),
       c + (sumLineTotals ps + sumLineTotals ps * (15 / 100 : ℚ))) := by
  induction ps with
  | nil => intro a b c; simp [sumLineTotals]
  | cons p t ih =>
    intro a b c
    have hsum : sumLineTotals (p :: t) = lineTotal p + sumLineTotals t := by
      simp [sumLineTotals]
    rw [List.foldl_cons]
    show List.foldl totalsStep (totalsStep (a, b, c) p) t = _
    rw [show totalsStep (a, b, c) p =
        (a + lineTotal p, b + lineTotal p * (15 / 100 : ℚ),
         c + (lineTotal p + lineTotal p * (15 / 100 : ℚ))) from rfl]
    rw [ih, hsum]
    refine Prod.ext ?_ (Prod.ext ?_ ?_) <;> simp <;> ring

theorem computeTotals_spec (ps : List ProductInput) :
    computeTotals ps =
      (sumLineTotals ps,
       sumLineTotals ps * (15 / 100 : ℚ),
       sumLineTotals ps + sumLineTotals ps * (15 / 100 : ℚ)) := by
  unfold computeTotals
  rw [computeTotals_foldl ps 0 0 0]
  simp

/-- Case analysis of one run of the PUT handler: either some statement
failed (or the row was missing) and the returned database is exactly the
original one (the rollback), or the run succeeded, answered with the
derived `custom_id`, stored exactly the revised header under the id, and —
when the incoming `products` array was empty or absent — left the
`quotation_products` table untouched. -/
theorem revisionWrite_shape (db : DB) (id : String) (body : RevisionBody)
    (now : Nat) (nowIso : String) (fails : Nat → Bool) :
    ((revisionWrite db id body now nowIso fails).fst = db ∧
      ((revisionWrite db id body now nowIso fails).snd = RevResult.serverError ∨
       (revisionWrite db id body now nowIso fails).snd = RevResult.notFound))
    ∨ (∃ q, assocFind db.quotations id = some q ∧
        (revisionWrite db id body now nowIso fails).snd =
          RevResult.success (deriveCustomId q.custom_id) ∧
        assocFind (revisionWrite db id body now nowIso fails).fst.quotations id =
          some (revisedQuotation q body now nowIso) ∧
        (body.products = some [] ∨ body.products = none →
          (revisionWrite db id body now nowIso fails).fst.quotation_products =
            db.quotation_products)) := by
  unfold revisionWrite
  split
  · exact Or.inl ⟨rfl, Or.inl rfl⟩
  · split
    · exact Or.inl ⟨rfl, Or.inr rfl⟩
    · next q hq =>
      split
      · exact Or.inl ⟨rfl, Or.inl rfl⟩
      · split
        · next ps hps =>
          split
          · refine Or.inr ⟨q, hq, rfl, ?_, fun _ => rfl⟩
            simp only [headerUpdated]
            exact assocFind_update db.quotations id _ q hq
          · next hne =>
            split
            · exact Or.inl ⟨rfl, Or.inl rfl⟩
            · next rows hrows =>
              refine Or.inr ⟨q, hq, rfl, ?_, ?_⟩
              · show assocFind (headerUpdated db id q body now nowIso).quotations id = _
                simp only [headerUpdated]
                exact assocFind_update db.quotations id _ q hq
              · intro hpe
                exfalso
                rcases hpe with hpe | hpe
                · rw [hps] at hpe
                  exact hne (Option.some.injEq _ _ ▸ hpe)
                · rw [hps] at hpe
                  cases hpe
        · next hnone =>
          refine Or.inr ⟨q, hq, rfl, ?_, fun _ => rfl⟩
          simp only [headerUpdated]
          exact assocFind_update db.quotations id _ q hq

theorem insertProducts_neverFail (id : String) :
    ∀ (ps : List ProductInput) (idx : Nat) (rows : List (String × LineItem)),
      ∃ r, insertProducts id ps idx neverFail rows = some r := by
  intro ps
  induction ps with
  | nil => intro idx rows; exact ⟨rows, rfl⟩
  | cons p t ih =>
    intro idx rows
    simpa [insertProducts, neverFail] using ih (idx + 1) (rows ++ [(id, mkLineItem p)])

theorem replaceProducts_neverFail (rows : List (String × LineItem)) (id : String)
    (ps : List ProductInput) :
    ∃ r, replaceProducts rows id ps neverFail = some r := by
  simpa [replaceProducts, neverFail] using
    insertProducts_neverFail id ps 3 (assocErase rows id)

/-- When no statement fails and the row exists, the PUT handler does not
answer with an error. -/
theorem revisionWrite_neverFail_no_error (db : DB) (id : String)
    (body : RevisionBody) (now : Nat) (nowIso : String) (q : Quotation)
    (hq : assocFind db.quotations id = some q) :
    (revisionWrite db id body now nowIso neverFail).snd ≠ RevResult.serverError ∧
    (revisionWrite db id body now nowIso neverFail).snd ≠ RevResult.notFound := by
  unfold revisionWrite
  split
  · next h => simp [neverFail] at h
  · split
    · next h => rw [h] at hq; cases hq
    · next q' hq' =>
      split
      · next h => simp [neverFail] at h
      · split
        · next ps hps =>
          split
          · exact ⟨by simp, by simp⟩
          · split
            · next hr =>
              obtain ⟨r, hr'⟩ := replaceProducts_neverFail db.quotation_products id ps
              rw [hr'] at hr
              cases hr
            · exact ⟨by simp, by simp⟩
        · exact ⟨by simp, by simp⟩

/-! ## Concrete database used by the witnesses -/

def qEx : Quotation :=
  { custom_id := "QT-7", client_id := some "c1", delivery_date := none,
    delivery_type := none, notes := none, status := "not Delivered",
    storekeeperaccept := "accepted", supervisoraccept := "accepted",
    manageraccept := "rejected", updated_at := 0,
    actual_delivery_date := none, storekeeper_notes := none,
    total_price := 20, total_vat := 3, total_subtotal := 23,
    exported := false, sales_rep_id := "s1", supervisor_id := none }

def itemEx : LineItem :=
  { description := some "bolts", quantity := some 1, price := some 20,
    vat := 3, subtotal := 23 }

def clientEx : Client :=
  { company_name := "Acme", client_name := "Ali", phone_number := "0500000000" }

def salesRepEx : SalesRep :=
  { name := "Sara", email := "sara@example.com", phone := "0511111111" }

def dbEx : DB :=
  { quotations := [("1", qEx)], quotation_products := [("1", itemEx)],
    clients := [("c1", clientEx)], salesreps := [("s1", salesRepEx)],
    supervisors := [] }

def bodyEx : RevisionBody :=
  { client_id := some "c1", delivery_date := some "2026-01-01",
    delivery_type := some "truck", notes := some "urgent",
    products := some [{ description := some "bolts", quantity := some 2,
                        price := some 4 }],
    status := some "delivered", storekeeper_notes := none }

def bodyCased : RevisionBody :=
  { client_id := some "c1", delivery_date := none, delivery_type := none,
    notes := none, products := none, status := some "Delivered",
    storekeeper_notes := none }

def emptyProductsBody : RevisionBody :=
  { client_id := some "c1", delivery_date := none, delivery_type := none,
    notes := none, products := some [], status := none,
    storekeeper_notes := none }

/-- Stored line items of one quotation, in table order. -/
def productsOf (db : DB) (id : String) : List LineItem :=
  (db.quotation_products.filter (fun r => (r.1 = id : Bool))).map Prod.snd

/-- Sum of stored `price × quantity` over a list of stored line items. -/
def itemsTotalPrice (items : List LineItem) : ℚ :=
  (items.map (fun it => it.price.getD 0 * it.quantity.getD 0)).sum

/-- C2: on every successful revision write the stored header totals satisfy
`total_price = Σ price·quantity` over the incoming items (missing or
non-numeric values coerced to 0 by the `parseFloat(x) || 0` step),
`total_vat = 0.15 · total_price`, and
`total_subtotal = total_price + total_vat`. -/
theorem c2_totals_invariant (db : DB) (id : String) (body : RevisionBody)
    (now : Nat) (nowIso : String) (fails : Nat → Bool) (cid : String)
    (h : (revisionWrite db id body now nowIso fails).snd = RevResult.success cid) :
    ∃ q', assocFind (revisionWrite db id body now nowIso fails).fst.quotations id =
        some q' ∧
      q'.total_price = sumLineTotals (body.products.getD []) ∧
      q'.total_vat = (15 / 100 : ℚ) * q'.total_price ∧
      q'.total_subtotal = q'.total_price + q'.total_vat := by
  rcases revisionWrite_shape db id body now nowIso fails with
    ⟨_, he | he⟩ | ⟨q, hq, hsnd, hfind, _⟩
  · rw [h] at he; cases he
  · rw [h] at he; cases he
  · refine ⟨revisedQuotation q body now nowIso, hfind, ?_, ?_, ?_⟩
    · simp [revisedQuotation, computeTotals_spec]
    · simp only [revisedQuotation, computeTotals_spec]
      ring
    · simp [revisedQuotation, computeTotals_spec]

/-- Witness for C2 at a concrete database and payload. -/
theorem c2_totals_invariant_witness :
    ∃ q', assocFind (revisionWrite dbEx "1" bodyEx 5 "2026-01-02" neverFail).fst.quotations
        "1" = some q' ∧
      q'.total_price = sumLineTotals (bodyEx.products.getD []) ∧
      q'.total_vat = (15 / 100 : ℚ) * q'.total_price ∧
      q'.total_subtotal = q'.total_price + q'.total_vat :=
  c2_totals_invariant dbEx "1" bodyEx 5 "2026-01-02" neverFail
    (deriveCustomId "QT-7") (by decide)

/-- C3: after every successful revision write the stored header has all
three approval flags equal to `"pending"`, whatever they were before. -/
theorem c3_approvals_reset (db : DB) (id : String) (body : RevisionBody)
    (now : Nat) (nowIso : String) (fails : Nat → Bool) (cid : String)
    (h : (revisionWrite db id body now nowIso fails).snd = RevResult.success cid) :
    ∃ q', assocFind (revisionWrite db id body now nowIso fails).fst.quotations id =
        some q' ∧
      q'.storekeeperaccept = "pending" ∧
      q'.supervisoraccept = "pending" ∧
      q'.manageraccept = "pending" := by
  rcases revisionWrite_shape db id body now nowIso fails with
    ⟨_, he | he⟩ | ⟨q, hq, hsnd, hfind, _⟩
  · rw [h] at he; cases he
  · rw [h] at he; cases he
  · exact ⟨revisedQuotation q body now nowIso, hfind, rfl, rfl, rfl⟩

/-- Witness for C3: the stored row had flags accepted/accepted/rejected
before the write. -/
theorem c3_approvals_reset_witness :
    ∃ q', assocFind (revisionWrite dbEx "1" bodyEx 5 "2026-01-02" neverFail).fst.quotations
        "1" = some q' ∧
      q'.storekeeperaccept = "pending" ∧
      q'.supervisoraccept = "pending" ∧
      q'.manageraccept = "pending" :=
  c3_approvals_reset dbEx "1" bodyEx 5 "2026-01-02" neverFail
    (deriveCustomId "QT-7") (by decide)

/-- C4: every run of the PUT handler that does not answer success — a
missing row or any failing statement of the transaction — returns the
database unchanged: the prior header (totals, `custom_id`) and the prior
line items are all still in place, and no partially-updated state exists. -/
theorem c4_rollback_atomicity (db : DB) (id : String) (body : RevisionBody)
    (now : Nat) (nowIso : String) (fails : Nat → Bool)
    (h : (revisionWrite db id body now nowIso fails).snd = RevResult.serverError ∨
         (revisionWrite db id body now nowIso fails).snd = RevResult.notFound) :
    (revisionWrite db id body now nowIso fails).fst = db := by
  rcases revisionWrite_shape db id body now nowIso fails with
    ⟨hdb, _⟩ | ⟨q, hq, hsnd, hfind, _⟩
  · exact hdb
  · rcases h with h | h <;> rw [hsnd] at h <;> cases h

/-- Witness for C4: the run whose first line-item INSERT (statement 3)
fails — after the header UPDATE already ran inside the transaction —
leaves the database exactly as it was. -/
theorem c4_rollback_atomicity_witness :
    (revisionWrite dbEx "1" bodyEx 5 "2026-01-02" (fun n => decide (3 ≤ n))).fst =
      dbEx :=
  c4_rollback_atomicity dbEx "1" bodyEx 5 "2026-01-02" (fun n => decide (3 ≤ n))
    (Or.inl (by decide))

/-- C5: on a successful revision write, `actual_delivery_date` becomes the
current instant exactly when the incoming status (defaulted to
`"not Delivered"`) is the string `"delivered"`; for any other status the
stored value is kept (COALESCE), so a value once set is never cleared. -/
theorem c5_actual_delivery_date (db : DB) (id : String) (body : RevisionBody)
    (now : Nat) (nowIso : String) (fails : Nat → Bool) (cid : String)
    (q : Quotation)
    (hq : assocFind db.quotations id = some q)
    (h : (revisionWrite db id body now nowIso fails).snd = RevResult.success cid) :
    ∃ q', assocFind (revisionWrite db id body now nowIso fails).fst.quotations id =
        some q' ∧
      q'.actual_delivery_date =
        (if body.status.getD "not Delivered" = "delivered" then some nowIso
         else q.actual_delivery_date) ∧
      (∀ d, q.actual_delivery_date = some d → q'.actual_delivery_date ≠ none) := by
  rcases revisionWrite_shape db id body now nowIso fails with
    ⟨_, he | he⟩ | ⟨q0, hq0, hsnd, hfind, _⟩
  · rw [h] at he; cases he
  · rw [h] at he; cases he
  · rw [hq] at hq0
    cases hq0
    refine ⟨revisedQuotation q body now nowIso, hfind, ?_, ?_⟩
    · by_cases hs : body.status.getD "not Delivered" = "delivered"
      · simp [revisedQuotation, coalesce, hs]
      · simp [revisedQuotation, coalesce, hs]
    · intro d hd
      by_cases hs : body.status.getD "not Delivered" = "delivered"
      · simp [revisedQuotation, coalesce, hs]
      · simp [revisedQuotation, coalesce, hs, hd]

/-- Witness for C5, applied twice: with incoming status `"delivered"` the
date is set to the current instant; with the differently-cased status
`"Delivered"` the stored value is kept. -/
theorem c5_actual_delivery_date_witness :
    (∃ q', assocFind (revisionWrite dbEx "1" bodyEx 5 "2026-01-02" neverFail).fst.quotations
        "1" = some q' ∧
      q'.actual_delivery_date =
        (if bodyEx.status.getD "not Delivered" = "delivered" then some "2026-01-02"
         else qEx.actual_delivery_date) ∧
      (∀ d, qEx.actual_delivery_date = some d → q'.actual_delivery_date ≠ none))
    ∧ (∃ q', assocFind (revisionWrite dbEx "1" bodyCased 5 "2026-01-02" neverFail).fst.quotations
        "1" = some q' ∧
      q'.actual_delivery_date =
        (if bodyCased.status.getD "not Delivered" = "delivered" then some "2026-01-02"
         else qEx.actual_delivery_date) ∧
      (∀ d, qEx.actual_delivery_date = some d → q'.actual_delivery_date ≠ none)) :=
  ⟨c5_actual_delivery_date dbEx "1" bodyEx 5 "2026-01-02" neverFail
      (deriveCustomId "QT-7") qEx (by decide) (by decide),
   c5_actual_delivery_date dbEx "1" bodyCased 5 "2026-01-02" neverFail
      (deriveCustomId "QT-7") qEx (by decide) (by decide)⟩

/-- A clean run (row present, no statement failing) whose payload carries
an empty `products` array zeroes the stored totals but leaves the
`quotation_products` table untouched. -/
theorem revisionWrite_empty_products_spec (db : DB) (id : String)
    (body : RevisionBody) (now : Nat) (nowIso : String) (q : Quotation)
    (hq : assocFind db.quotations id = some q)
    (hp : body.products = some []) :
    ∃ q', assocFind (revisionWrite db id body now nowIso neverFail).fst.quotations id =
        some q' ∧
      q'.total_price = 0 ∧ q'.total_vat = 0 ∧ q'.total_subtotal = 0 ∧
      (revisionWrite db id body now nowIso neverFail).fst.quotation_products =
        db.quotation_products := by
  rcases revisionWrite_shape db id body now nowIso neverFail with
    ⟨_, he | he⟩ | ⟨q0, hq0, hsnd, hfind, hprod⟩
  · exact absurd he (revisionWrite_neverFail_no_error db id body now nowIso q hq).1
  · exact absurd he (revisionWrite_neverFail_no_error db id body now nowIso q hq).2
  · refine ⟨revisedQuotation q0 body now nowIso, hfind, ?_, ?_, ?_, hprod (Or.inl hp)⟩
    all_goals simp [revisedQuotation, hp, computeTotals]

/-- C10: a revision write whose payload has `products = []` sets all three
stored totals to 0 while the previously stored line items are neither
deleted nor replaced (the delete-and-reinsert block is guarded by
`products.length > 0`); consequently the stored totals can disagree with
the totals recomputed from the stored line items, as the concrete second
conjunct exhibits. -/
theorem c10_empty_products_skips_replacement :
    (∀ (db : DB) (id : String) (body : RevisionBody) (now : Nat)
        (nowIso : String) (q : Quotation),
      assocFind db.quotations id = some q →
      body.products = some [] →
      ∃ q', assocFind (revisionWrite db id body now nowIso neverFail).fst.quotations id =
          some q' ∧
        q'.total_price = 0 ∧ q'.total_vat = 0 ∧ q'.total_subtotal = 0 ∧
        (revisionWrite db id body now nowIso neverFail).fst.quotation_products =
          db.quotation_products)
    ∧ (∃ q', assocFind
          (revisionWrite dbEx "1" emptyProductsBody 5 "2026-01-02" neverFail).fst.quotations
          "1" = some q' ∧
        itemsTotalPrice
          (productsOf (revisionWrite dbEx "1" emptyProductsBody 5 "2026-01-02" neverFail).fst
            "1") ≠ q'.total_price) := by
  constructor
  · intro db id body now nowIso q hq hp
    exact revisionWrite_empty_products_spec db id body now nowIso q hq hp
  · obtain ⟨q', hfind, hp0, _, _, hprod⟩ :=
      revisionWrite_empty_products_spec dbEx "1" emptyProductsBody 5 "2026-01-02"
        qEx (by decide) rfl
    refine ⟨q', hfind, ?_⟩
    have hpo : productsOf
        (revisionWrite dbEx "1" emptyProductsBody 5 "2026-01-02" neverFail).fst "1" =
        productsOf dbEx "1" := by
      unfold productsOf
      rw [hprod]
    rw [hpo, hp0]
    show itemsTotalPrice (productsOf dbEx "1") ≠ 0
    norm_num [productsOf, dbEx, itemEx, itemsTotalPrice, qEx]

/-- Witness for C10: the universally quantified first conjunct applied at
the concrete database. -/
theorem c10_empty_products_skips_replacement_witness :
    ∃ q', assocFind
        (revisionWrite dbEx "1" emptyProductsBody 7 "2026-02-02" neverFail).fst.quotations
        "1" = some q' ∧
      q'.total_price = 0 ∧ q'.total_vat = 0 ∧ q'.total_subtotal = 0 ∧
      (revisionWrite dbEx "1" emptyProductsBody 7 "2026-02-02" neverFail).fst.quotation_products =
        dbEx.quotation_products :=
  c10_empty_products_skips_replacement.1 dbEx "1" emptyProductsBody 7 "2026-02-02"
    qEx (by decide) rfl

/-! ## `GET /quotations/:id` (lines 52-114) -/

/-- The joined header read (lines 61-75): quotation INNER JOIN clients on
`client_id`, LEFT JOIN supervisors on `supervisor_id`.  Yields no row when
either the quotation or its client is absent; the supervisor name is
nullable. -/
def headerJoin (db : DB) (id : String) :
    Option (Quotation × Client × Option String) :=
  (assocFind db.quotations id).bind fun q =>
    (q.client_id.bind (assocFind db.clients)).map fun c =>
      (q, c, (q.supervisor_id.bind (assocFind db.supervisors)).map Supervisor.name)

/-- The combined response object of lines 100-104: header row and client
fields, `products` as the stored list, `salesRep` as a nested object or
`none` (JS `rows[0] || null`). -/
structure AggResponse where
  header : Quotation
  client : Client
  supervisor_name : Option String
  products : List LineItem
  salesRep : Option SalesRep
deriving DecidableEq

inductive GetResult where
  | ok (r : AggResponse)
  | notFound
deriving DecidableEq

/-- One run of the GET handler, together with which of the two follow-up
reads (line items, sales representative) it performed. -/
structure GetTrace where
  result : GetResult
  readProducts : Bool
  readSalesRep : Bool
deriving DecidableEq

/-- `GET /quotations/:id`: the joined header read first; on no row the
handler answers 404 at line 78 before either follow-up query runs;
otherwise it reads the line items and the sales representative and
assembles the response. -/
def getQuotationAgg (db : DB) (id : String) : GetTrace :=
  match headerJoin db id with
  | none => { result := GetResult.notFound, readProducts := false, readSalesRep := false }
  | some (q, c, sn) =>
    { result := GetResult.ok
        { header := q, client := c, supervisor_name := sn,
          products := productsOf db id,
          salesRep := assocFind db.salesreps q.sales_rep_id },
      readProducts := true, readSalesRep := true }

/-- C6: when the joined header read yields no row the GET handler answers
not-found and performs neither the line-item read nor the sales-rep read;
when it yields a row, the response carries the stored products list and a
`salesRep` field equal to the sales-rep lookup — a nested object when the
referenced row exists and explicitly null (`none`) when absent. -/
theorem c6_aggregate_reader (db : DB) (id : String) :
    (headerJoin db id = none →
      getQuotationAgg db id =
        { result := GetResult.notFound, readProducts := false, readSalesRep := false })
    ∧ (∀ q c sn, headerJoin db id = some (q, c, sn) →
        ∃ r, (getQuotationAgg db id).result = GetResult.ok r ∧
          (getQuotationAgg db id).readProducts = true ∧
          (getQuotationAgg db id).readSalesRep = true ∧
          r.products = productsOf db id ∧
          r.salesRep = assocFind db.salesreps q.sales_rep_id ∧
          (∀ s, assocFind db.salesreps q.sales_rep_id = some s → r.salesRep = some s) ∧
          (assocFind db.salesreps q.sales_rep_id = none → r.salesRep = none)) := by
  constructor
  · intro h
    unfold getQuotationAgg
    rw [h]
  · intro q c sn h
    unfold getQuotationAgg
    rw [h]
    exact ⟨_, rfl, rfl, rfl, rfl, rfl, fun s hs => by rw [hs], fun hs => by rw [hs]⟩

/-- Witness for C6, applied twice: at an id that is absent (no joined row,
no follow-up reads) and at the stored quotation (products list and nested
sales rep present). -/
theorem c6_aggregate_reader_witness :
    getQuotationAgg dbEx "missing" =
      { result := GetResult.notFound, readProducts := false, readSalesRep := false }
    ∧ ∃ r, (getQuotationAgg dbEx "1").result = GetResult.ok r ∧
        (getQuotationAgg dbEx "1").readProducts = true ∧
        (getQuotationAgg dbEx "1").readSalesRep = true ∧
        r.products = productsOf dbEx "1" ∧
        r.salesRep = assocFind dbEx.salesreps qEx.sales_rep_id ∧
        (∀ s, assocFind dbEx.salesreps qEx.sales_rep_id = some s → r.salesRep = some s) ∧
        (assocFind dbEx.salesreps qEx.sales_rep_id = none → r.salesRep = none) :=
  ⟨(c6_aggregate_reader dbEx "missing").1 (by decide),
   (c6_aggregate_reader dbEx "1").2 qEx clientEx none (by decide)⟩

/-! ## `PUT /quotations/:id/export` (lines 280-318) -/

inductive ExpResult where
  | success (exported : Bool)
  | notFound
deriving DecidableEq

/-- The export marker: a single UPDATE setting `exported` to true and
bumping `updated_at`, answering 404 when no row matched (`rowCount === 0`)
and returning the updated `exported` value otherwise. -/
def exportQuotation (db : DB) (id : String) (now : Nat) : DB × ExpResult :=
  match assocFind db.quotations id with
  | none => (db, ExpResult.notFound)
  | some q =>
    ({ db with quotations :=
        assocUpdate db.quotations id { q with exported := true, updated_at := now } },
     ExpResult.success true)

/-- C7: marking a quotation exported sets `exported` to true and refreshes
`updated_at`; marking an already-exported quotation is a success whose
resulting `exported` value equals the prior one (a no-op on the flag, not
an error); a missing row yields not-found with the database unchanged. -/
theorem c7_export_idempotent (db : DB) (id : String) (now : Nat) :
    (∀ q, assocFind db.quotations id = some q →
      (exportQuotation db id now).snd = ExpResult.success true ∧
      ∃ q', assocFind (exportQuotation db id now).fst.quotations id = some q' ∧
        q'.exported = true ∧ q'.updated_at = now ∧
        (q.exported = true → q'.exported = q.exported))
    ∧ (assocFind db.quotations id = none →
        (exportQuotation db id now).snd = ExpResult.notFound ∧
        (exportQuotation db id now).fst = db) := by
  constructor
  · intro q hq
    unfold exportQuotation
    rw [hq]
    refine ⟨rfl, { q with exported := true, updated_at := now }, ?_, rfl, rfl, fun h => by rw [h]⟩
    exact assocFind_update db.quotations id _ q hq
  · intro hq
    unfold exportQuotation
    rw [hq]
    exact ⟨rfl, rfl⟩

/-- Witness for C7, applied three times: exporting the (not yet exported)
stored row succeeds; exporting it again — on the database produced by the
first export, where the flag is already true — is again a success with the
same `exported` value; a missing id answers not-found. -/
theorem c7_export_idempotent_witness :
    ((exportQuotation dbEx "1" 8).snd = ExpResult.success true ∧
      ∃ q', assocFind (exportQuotation dbEx "1" 8).fst.quotations "1" = some q' ∧
        q'.exported = true ∧ q'.updated_at = 8 ∧
        (qEx.exported = true → q'.exported = qEx.exported))
    ∧ ((exportQuotation (exportQuotation dbEx "1" 8).fst "1" 9).snd =
        ExpResult.success true ∧
      ∃ q', assocFind (exportQuotation (exportQuotation dbEx "1" 8).fst "1" 9).fst.quotations
          "1" = some q' ∧
        q'.exported = true ∧ q'.updated_at = 9 ∧
        ({ qEx with exported := true, updated_at := 8 }.exported = true →
          q'.exported = { qEx with exported := true, updated_at := 8 }.exported))
    ∧ ((exportQuotation dbEx "missing" 8).snd = ExpResult.notFound ∧
        (exportQuotation dbEx "missing" 8).fst = dbEx) :=
  ⟨(c7_export_idempotent dbEx "1" 8).1 qEx (by decide),
   (c7_export_idempotent (exportQuotation dbEx "1" 8).fst "1" 9).1
      { qEx with exported := true, updated_at := 8 } (by decide),
   (c7_export_idempotent dbEx "missing" 8).2 (by decide)⟩

/-! ## `DELETE /quotations/:id` (lines 326-356) -/

inductive DelResult where
  | success
  | notFound
deriving DecidableEq

/-- The deleter: line items of the id are deleted first, unconditionally;
then the header row; 404 exactly when the header DELETE matched zero
rows. -/
def deleteQuotation (db : DB) (id : String) : DB × DelResult :=
  match assocFind db.quotations id with
  | none =>
    ({ db with quotation_products := assocErase db.quotation_products id },
     DelResult.notFound)
  | some _ =>
    ({ db with quotation_products := assocErase db.quotation_products id,
               quotations := assocErase db.quotations id },
     DelResult.success)

theorem assocErase_self_filter {α : Type} (l : List (String × α)) (k : String) :
    (assocErase l k).filter (fun r => (r.1 = k : Bool)) = [] := by
  induction l with
  | nil => rfl
  | cons r t ih =>
    by_cases hk : r.1 = k <;>
      simp [assocErase, List.filter_cons, hk] at ih ⊢

/-- C8: the deleter removes every line item of the id even when no header
row exists (the item DELETE runs first, unconditionally); it answers
not-found exactly when the header row was absent; after a successful
delete the header is gone and the aggregate reader answers not-found for
that id. -/
theorem c8_delete_cascades (db : DB) (id : String) :
    productsOf (deleteQuotation db id).fst id = [] ∧
    ((deleteQuotation db id).snd = DelResult.notFound ↔
      assocFind db.quotations id = none) ∧
    ((deleteQuotation db id).snd = DelResult.success →
      assocFind (deleteQuotation db id).fst.quotations id = none ∧
      (getQuotationAgg (deleteQuotation db id).fst id).result = GetResult.notFound) := by
  unfold deleteQuotation
  split
  · next hq =>
    refine ⟨?_, ⟨fun _ => hq, fun _ => rfl⟩, fun hc => absurd hc (by simp)⟩
    simp [productsOf, assocErase_self_filter]
  · next q hq =>
    refine ⟨?_, ⟨fun hc => absurd hc (by simp), fun hc => by rw [hc] at hq; cases hq⟩,
      fun _ => ?_⟩
    · simp [productsOf, assocErase_self_filter]
    · have hgone : assocFind
          ({ db with quotation_products := assocErase db.quotation_products id,
                     quotations := assocErase db.quotations id } : DB).quotations id =
          none := assocFind_erase db.quotations id
      refine ⟨hgone, ?_⟩
      have hjoin : headerJoin
          { db with quotation_products := assocErase db.quotation_products id,
                    quotations := assocErase db.quotations id } id = none := by
        simp [headerJoin, assocFind_erase]
      show (getQuotationAgg _ id).result = GetResult.notFound
      unfold getQuotationAgg
      rw [hjoin]

/-- Witness for C8, applied twice: deleting the stored quotation (header
present) and deleting a missing id (line-item delete still runs). -/
theorem c8_delete_cascades_witness :
    (productsOf (deleteQuotation dbEx "1").fst "1" = [] ∧
      assocFind (deleteQuotation dbEx "1").fst.quotations "1" = none ∧
      (getQuotationAgg (deleteQuotation dbEx "1").fst "1").result = GetResult.notFound)
    ∧ (productsOf (deleteQuotation dbEx "missing").fst "missing" = [] ∧
        (deleteQuotation dbEx "missing").snd = DelResult.notFound) :=
  ⟨⟨(c8_delete_cascades dbEx "1").1,
    (c8_delete_cascades dbEx "1").2.2 (by decide)⟩,
   ⟨(c8_delete_cascades dbEx "missing").1,
    (c8_delete_cascades dbEx "missing").2.1.mpr (by decide)⟩⟩

/-! ## `POST /drivers` (`src/api/driver/driver+api.js`, lines 151-235)

The two validation regexes are modelled character-exactly:
`/^[^\s@]+@[^\s@]+\.[^\s@]+$/` for the email and `/^\+?[\d\s-]{8,}$/` for
the phone, with `\s` as the full ECMAScript whitespace class and `\d` as
`[0-9]`. -/

/-- The ECMAScript `\s` class: the WhiteSpace production (TAB, VT, FF,
SP, NBSP, ZWNBSP and the Unicode Space_Separator code points) together
with the LineTerminator production (LF, CR, LS, PS). -/
def jsWhitespace (c : Char) : Bool :=
  c == ' ' || c == '\t' || c == '\n' || c == '\r' || c == '\x0b' || c == '\x0c' ||
  c == '\u00A0' || c == '\u1680' ||
  c == '\u2000' || c == '\u2001' || c == '\u2002' || c == '\u2003' ||
  c == '\u2004' || c == '\u2005' || c == '\u2006' || c == '\u2007' ||
  c == '\u2008' || c == '\u2009' || c == '\u200A' ||
  c == '\u2028' || c == '\u2029' || c == '\u202F' || c == '\u205F' ||
  c == '\u3000' || c == '\uFEFF'

/-- One character of the `[^\s@]` class. -/
def emailChar (c : Char) : Bool :=
  !(jsWhitespace c) && c != '@'

/-- `/^[^\s@]+@[^\s@]+\.[^\s@]+$/`: a non-empty `[^\s@]` run, an `@`, then
a run that is all `[^\s@]` and contains a `.` that is neither its first
nor its last character.  (The part before the first `@` is the only
candidate for the left run, because the class excludes `@`.) -/
def emailMatch (s : String) : Bool :=
  match s.data.dropWhile (fun c => c != '@') with
  | [] => false
  | _ :: rest =>
    let a := s.data.takeWhile (fun c => c != '@')
    !a.isEmpty && a.all emailChar &&
      !rest.isEmpty && rest.all emailChar &&
      ((rest.drop 1).dropLast).contains '.'

/-- `/^\+?[\d\s-]{8,}$/`: an optional leading `+`, then at least eight
characters, each a digit, JS whitespace, or a hyphen. -/
def phoneMatch (s : String) : Bool :=
  match s.data with
  | '+' :: rest => decide (8 ≤ rest.length) && rest.all (fun c => c.isDigit || jsWhitespace c || c == '-')
  | l => decide (8 ≤ l.length) && l.all (fun c => c.isDigit || jsWhitespace c || c == '-')

/-- A stored `drivers` row (the columns the endpoint inserts). -/
structure Driver where
  name : String
  email : String
  phone : String
  clerk_id : String
  role : String
  created_at : Nat
deriving DecidableEq

/-- The request body of `POST /drivers`; absent fields are `none`.  The
destructuring default `role = 'driver'` applies only to an absent role. -/
structure DriverBody where
  name : Option String
  email : Option String
  phone : Option String
  clerkId : Option String
  role : Option String
deriving DecidableEq

/-- JS falsiness of an optional string field: absent or empty. -/
def falsyStr (o : Option String) : Prop :=
  o = none ∨ o = some ""

instance (o : Option String) : Decidable (falsyStr o) := by
  unfold falsyStr
  infer_instance

def validRoles : List String := ["driver", "admin", "dispatcher"]

inductive DrvResult where
  | success (d : Driver)
  | clientError (msg : String)
deriving DecidableEq

/-- One run of `POST /drivers`: the resulting `drivers` table, the HTTP
outcome, and whether the external identity provider (Clerk) was called. -/
structure PostDriversOutcome where
  drivers : List (String × Driver)
  result : DrvResult
  clerkContacted : Bool
deriving DecidableEq

/-- The row inserted at lines 209-217. -/
def mkDriver (body : DriverBody) (userId role : String) (now : Nat) : Driver :=
  { name := body.name.getD "", email := body.email.getD "",
    phone := body.phone.getD "", clerk_id := userId, role := role,
    created_at := now }

/-- `POST /drivers` (lines 151-235): presence check on the three contact
fields (JS falsiness), role whitelist, the two regexes, the duplicate
lookup by email, then — only on the happy path — the Clerk call (skipped
when a truthy `clerkId` was supplied) and the INSERT.  The table is keyed
by email, which the duplicate SELECT looks up. -/
def postDrivers (db : List (String × Driver)) (body : DriverBody)
    (newClerkId : String) (now : Nat) : PostDriversOutcome :=
  if falsyStr body.name ∨ falsyStr body.email ∨ falsyStr body.phone then
    { drivers := db, result := DrvResult.clientError "Missing required fields",
      clerkContacted := false }
  else if ¬ (body.role.getD "driver") ∈ validRoles then
    { drivers := db, result := DrvResult.clientError "Invalid role specified",
      clerkContacted := false }
  else if ¬ (emailMatch (body.email.getD "") = true ∧
             phoneMatch (body.phone.getD "") = true) then
    { drivers := db,
      result := DrvResult.clientError "Invalid email or phone number format",
      clerkContacted := false }
  else
    match assocFind db (body.email.getD "") with
    | some _ =>
      { drivers := db,
        result := DrvResult.clientError "Driver with this email already exists",
        clerkContacted := false }
    | none =>
      if falsyStr body.clerkId then
        { drivers := db ++ [(body.email.getD "",
            mkDriver body newClerkId (body.role.getD "driver") now)],
          result := DrvResult.success
            (mkDriver body newClerkId (body.role.getD "driver") now),
          clerkContacted := true }
      else
        { drivers := db ++ [(body.email.getD "",
            mkDriver body (body.clerkId.getD "") (body.role.getD "driver") now)],
          result := DrvResult.success
            (mkDriver body (body.clerkId.getD "") (body.role.getD "driver") now),
          clerkContacted := false }

/-- C9: any provisioning request that fails validation (missing contact
field, role outside the whitelist, email or phone not matching its
pattern) or whose email already has a local row is answered with a client
error, the identity provider is not contacted, and the drivers table is
unchanged. -/
theorem c9_provisioning_rejection (db : List (String × Driver))
    (body : DriverBody) (newClerkId : String) (now : Nat)
    (h : falsyStr body.name ∨ falsyStr body.email ∨ falsyStr body.phone ∨
         ¬ (body.role.getD "driver") ∈ validRoles ∨
         emailMatch (body.email.getD "") = false ∨
         phoneMatch (body.phone.getD "") = false ∨
         assocFind db (body.email.getD "") ≠ none) :
    (∃ m, (postDrivers db body newClerkId now).result = DrvResult.clientError m) ∧
    (postDrivers db body newClerkId now).clerkContacted = false ∧
    (postDrivers db body newClerkId now).drivers = db := by
  unfold postDrivers
  by_cases h1 : falsyStr body.name ∨ falsyStr body.email ∨ falsyStr body.phone
  · rw [if_pos h1]
    exact ⟨⟨_, rfl⟩, rfl, rfl⟩
  rw [if_neg h1]
  by_cases h2 : ¬ (body.role.getD "driver") ∈ validRoles
  · rw [if_pos h2]
    exact ⟨⟨_, rfl⟩, rfl, rfl⟩
  rw [if_neg h2]
  by_cases h3 : ¬ (emailMatch (body.email.getD "") = true ∧
                   phoneMatch (body.phone.getD "") = true)
  · rw [if_pos h3]
    exact ⟨⟨_, rfl⟩, rfl, rfl⟩
  rw [if_neg h3]
  push_neg at h3
  cases hdup : assocFind db (body.email.getD "") with
  | some d => exact ⟨⟨_, rfl⟩, rfl, rfl⟩
  | none =>
    exfalso
    rcases h with h | h | h | h | h | h | h
    · exact h1 (Or.inl h)
    · exact h1 (Or.inr (Or.inl h))
    · exact h1 (Or.inr (Or.inr h))
    · exact h2 h
    · rw [h3.1] at h; cases h
    · rw [h3.2] at h; cases h
    · exact h hdup

/-- Witness for C9 at the spec's concrete example body
`{name: "A", email: "bad", phone: "123"}`: the email has no `@` and the
phone is shorter than eight characters. -/
theorem c9_provisioning_rejection_witness :
    (∃ m, (postDrivers []
        { name := some "A", email := some "bad", phone := some "123",
          clerkId := none, role := none } "ck_1" 0).result =
      DrvResult.clientError m) ∧
    (postDrivers []
        { name := some "A", email := some "bad", phone := some "123",
          clerkId := none, role := none } "ck_1" 0).clerkContacted = false ∧
    (postDrivers []
        { name := some "A", email := some "bad", phone := some "123",
          clerkId := none, role := none } "ck_1" 0).drivers = [] :=
  c9_provisioning_rejection []
    { name := some "A", email := some "bad", phone := some "123",
      clerkId := none, role := none } "ck_1" 0
    (Or.inr (Or.inr (Or.inr (Or.inr (Or.inl (by decide))))))
